import Mathlib

/-!
# Verification of the `glogi` logging library

A shallow embedding of the `glogi` Go package (colored, leveled console
logging on top of `log/slog`) together with theorems checking its
natural-language specification.

Go strings are modelled as `List Char` (the source only manipulates ASCII
data in the paths under study); Go `int`/`slog.Level` values are modelled
as `Int`.  Stateful package-level variables are modelled by explicit state
passing (`Config`, `GState`), and the output sink by a `Writer` value that
records the written lines and whether writes fail.
-/

namespace Glogi

/-- Go strings, modelled as lists of characters. -/
abbrev GoStr := List Char

/-- Shorthand to turn a Lean string literal into a `GoStr`. -/
def str (s : String) : GoStr := s.data

/-- The ASCII escape character `'\033'` (ESC, code 27). -/
def escChar : Char := '\x1b'

/-- Whitespace test used by `strings.TrimSpace` (ASCII range). -/
def isGoSpace (c : Char) : Bool :=
  c = ' ' || c = '\t' || c = '\n' || c = '\x0b' || c = '\x0c' || c = '\r'

/-- ASCII lower-casing of one character, as `strings.ToLower` acts on ASCII. -/
def toLowerChar (c : Char) : Char :=
  if 'A' ≤ c ∧ c ≤ 'Z' then Char.ofNat (c.toNat + 32) else c

/-- ASCII upper-casing of one character, as `strings.ToUpper` acts on ASCII. -/
def toUpperChar (c : Char) : Char :=
  if 'a' ≤ c ∧ c ≤ 'z' then Char.ofNat (c.toNat - 32) else c

/-- The `strings.ToLower` on ASCII data. -/
def goToLower (l : GoStr) : GoStr := l.map toLowerChar

/-- The `strings.ToUpper` on ASCII data. -/
def goToUpper (l : GoStr) : GoStr := l.map toUpperChar

/-- Drop leading whitespace (left half of `strings.TrimSpace`). -/
def trimLeft (l : GoStr) : GoStr := l.dropWhile isGoSpace

/-- The `strings.TrimSpace`: drop leading and trailing whitespace. -/
def trimSpace (l : GoStr) : GoStr :=
  ((trimLeft l).reverse.dropWhile isGoSpace).reverse

/-- ASCII decimal digit test. -/
def isDigitCh (c : Char) : Bool := '0' ≤ c && c ≤ '9'

/-- Numeric value of a digit list, most significant first. -/
def digitsToNat (l : GoStr) : Nat :=
  l.foldl (fun acc c => 10 * acc + (c.toNat - 48)) 0

/-- The digit part of `strconv.Atoi`/`ParseInt`: a nonempty string of
decimal digits whose value (negated when `neg`) fits in a 64-bit `int`;
anything else is an error (`none`). -/
def goAtoiDigits (ds : GoStr) (neg : Bool) : Option Int :=
  if ds = [] then none
  else if !ds.all isDigitCh then none
  else if neg then
    if digitsToNat ds ≤ 2 ^ 63 then some (-(digitsToNat ds : Int)) else none
  else
    if digitsToNat ds < 2 ^ 63 then some ((digitsToNat ds : Int)) else none

/-- The `strconv.Atoi`: optional sign, then a nonempty digit string, with the
result required to fit in a 64-bit `int` (Go returns an error otherwise). -/
def goAtoi (s : GoStr) : Option Int :=
  match s with
  | [] => none
  | c :: rest =>
    if c = '-' then goAtoiDigits rest true
    else if c = '+' then goAtoiDigits rest false
    else goAtoiDigits (c :: rest) false

/-- The `strconv.Atoi` succeeds. -/
def atoiOk (s : GoStr) : Bool := (goAtoi s).isSome

/-- The `strings.ReplaceAll(c, "\\033", "\033")`: replace every occurrence of
the four-character text `\033` by the real escape character, scanning left
to right over non-overlapping occurrences. -/
def replEsc : GoStr → GoStr
  | [] => []
  | '\\' :: '0' :: '3' :: '3' :: rest => escChar :: replEsc rest
  | c :: rest => c :: replEsc rest

/-- The four-character textual escape placeholder `\033`. -/
def patText : GoStr := ['\\', '0', '3', '3']

/-- The `strings.Contains(c, "\033")`: the one-character pattern reduces to
membership of the escape character. -/
def containsEsc (l : GoStr) : Bool := l.contains escChar

/-- The `strings.Contains(c, "\\033")`. -/
def containsPat (l : GoStr) : Bool := decide (patText <:+: l)

/-- The fixed name table of `parseColor`'s `switch` statement, applied to the
lower-cased trimmed input: each named color returns its 8-color ANSI escape,
and `none`/`off` return the empty string. `none` means no case matched. -/
def lookupName (lc : GoStr) : Option GoStr :=
  if lc = str "red" then some (str "\x1b[31m")
  else if lc = str "green" then some (str "\x1b[32m")
  else if lc = str "yellow" then some (str "\x1b[33m")
  else if lc = str "blue" then some (str "\x1b[34m")
  else if lc = str "magenta" then some (str "\x1b[35m")
  else if lc = str "cyan" then some (str "\x1b[36m")
  else if lc = str "white" then some (str "\x1b[37m")
  else if lc = str "gray" ∨ lc = str "grey" then some (str "\x1b[90m")
  else if lc = str "none" ∨ lc = str "off" then some []
  else none

/-- The `fmt.Sprintf("\033[%sm", c)`: wrap a numeric code as a foreground escape. -/
def ansiWrap (c : GoStr) : GoStr := escChar :: '[' :: c ++ ['m']

/-- Body of `parseColor` after the initial `c = strings.TrimSpace(c)`:
empty check, name table, escape-marker pass-through (with textual `\033`
substituted), numeric wrap, verbatim fallback (src/unnamed/part_000:81-116). -/
def parseColorT (c : GoStr) : GoStr :=
  if c = [] then []
  else
    match lookupName (goToLower c) with
    | some r => r
    | none =>
      if containsEsc c || containsPat c then replEsc c
      else if atoiOk c then ansiWrap c
      else c

/-- The `parseColor` from src/unnamed/part_000:81-116: trim, then dispatch. -/
def parseColor (c : GoStr) : GoStr := parseColorT (trimSpace c)

/-! ## Severity levels (`slog.Level` as `Int`) -/

/-- The `LevelTrace = slog.Level(-8)`. -/
def LevelTrace : Int := -8
/-- The `slog.LevelDebug`. -/
def LevelDebug : Int := -4
/-- The `slog.LevelInfo`. -/
def LevelInfo : Int := 0
/-- The `slog.LevelWarn`. -/
def LevelWarn : Int := 4
/-- The `slog.LevelError`. -/
def LevelError : Int := 8
/-- The `LevelFatal = slog.Level(12)`. -/
def LevelFatal : Int := 12
/-- The `LevelPanic = slog.Level(16)`. -/
def LevelPanic : Int := 16

/-- The `parseLevel` from src/glogi.go:65-78: case-insensitive match after
trimming; anything unrecognized defaults to INFO. -/
def parseLevel (s : GoStr) : Int :=
  let u := goToUpper (trimSpace s)
  if u = str "TRACE" then LevelTrace
  else if u = str "DEBUG" then LevelDebug
  else if u = str "WARN" ∨ u = str "WARNING" then LevelWarn
  else if u = str "ERROR" then LevelError
  else LevelInfo

/-! ## Configuration store (package-level variables of part_000) -/

/-- The `colorReset` constant `"\033[0m"` (no setter ever changes it). -/
def colorReset : GoStr := str "\x1b[0m"

/-- The mutable package-level configuration of src/unnamed/part_000:26-37. -/
structure Config where
  sourceWidth : Nat
  colorTrace : GoStr
  colorDebug : GoStr
  colorInfo : GoStr
  colorWarn : GoStr
  colorError : GoStr
  colorSource : GoStr
  colorsDisabled : Bool
  deriving Repr, DecidableEq

/-- The initial values of the configuration variables
(src/unnamed/part_000:26-37): width 20, default colors, INFO uncolored. -/
def defaultConfig : Config :=
  { sourceWidth := 20
    colorTrace := str "\x1b[90m"
    colorDebug := str "\x1b[36m"
    colorInfo := []
    colorWarn := str "\x1b[33m"
    colorError := str "\x1b[31m"
    colorSource := str "\x1b[32m"
    colorsDisabled := false }

/-- The `SetSourceWidth` (src/unnamed/part_000:119-123): positive widths are
stored, non-positive ones are ignored.  The Go parameter is an `int`. -/
def SetSourceWidth (width : Int) (cfg : Config) : Config :=
  if width > 0 then { cfg with sourceWidth := width.toNat } else cfg

/-- The `SetColorTrace` (src/unnamed/part_000:126). -/
def SetColorTrace (c : GoStr) (cfg : Config) : Config :=
  { cfg with colorTrace := parseColor c }

/-- The `SetColorError` (src/unnamed/part_000:138). -/
def SetColorError (c : GoStr) (cfg : Config) : Config :=
  { cfg with colorError := parseColor c }

/-- The `DisableColors` (src/unnamed/part_000:144). -/
def DisableColors (cfg : Config) : Config := { cfg with colorsDisabled := true }

/-- The `EnableColors` (src/unnamed/part_000:147). -/
def EnableColors (cfg : Config) : Config := { cfg with colorsDisabled := false }

/-- The environment variables read by the package; `os.Getenv` returns `""`
for unset keys, so each field is simply a string. -/
structure Env where
  logLevel : GoStr
  logSourceWidth : GoStr
  logNoColor : GoStr
  logColorTrace : GoStr
  logColorDebug : GoStr
  logColorInfo : GoStr
  logColorWarn : GoStr
  logColorError : GoStr
  logColorSource : GoStr
  deriving Repr

/-- An environment with no `LOG_*` variable set. -/
def emptyEnv : Env := ⟨[], [], [], [], [], [], [], [], []⟩

/-- One `if c := os.Getenv(...); c != "" { field = parseColor(c) }` step. -/
def envColor (c : GoStr) (old : GoStr) : GoStr :=
  if c ≠ [] then parseColor c else old

/-- The `initConfig` (src/unnamed/part_000:40-77) without its `configLoaded`
guard: reads width, color-disable flag and the six colors from `env`. -/
def applyEnvConfig (env : Env) (cfg : Config) : Config :=
  let cfg :=
    if env.logSourceWidth ≠ [] then
      match goAtoi env.logSourceWidth with
      | some w => if w > 0 then { cfg with sourceWidth := w.toNat } else cfg
      | none => cfg
    else cfg
  let cfg :=
    if env.logNoColor = str "1" ∨ env.logNoColor = str "true" then
      { cfg with colorsDisabled := true }
    else cfg
  { cfg with
    colorTrace := envColor env.logColorTrace cfg.colorTrace
    colorDebug := envColor env.logColorDebug cfg.colorDebug
    colorInfo := envColor env.logColorInfo cfg.colorInfo
    colorWarn := envColor env.logColorWarn cfg.colorWarn
    colorError := envColor env.logColorError cfg.colorError
    colorSource := envColor env.logColorSource cfg.colorSource }

/-- The `initConfig` with its idempotence guard: the pair is
(`configLoaded`, configuration). -/
def initConfig (env : Env) (loaded : Bool) (cfg : Config) : Bool × Config :=
  if loaded then (loaded, cfg) else (true, applyEnvConfig env cfg)

/-! ## Records and the formatter (`ColoredHandler.Handle`) -/

/-- The decimal digit character for `n % 10`. -/
def digitChar (n : Nat) : Char := Char.ofNat (48 + n % 10)

/-- Digit accumulator for `natChars`; the first argument is fuel, always
at least the number of digits, so the fuel case is never the one taken. -/
def natCharsCore : Nat → Nat → GoStr → GoStr
  | 0, _, acc => acc
  | fuel + 1, n, acc =>
    if n < 10 then digitChar n :: acc
    else natCharsCore fuel (n / 10) (digitChar n :: acc)

/-- Decimal rendering of a natural number (`fmt` `%d` for non-negative
values, which is what line numbers are). -/
def natChars (n : Nat) : GoStr := natCharsCore (n + 1) n []

/-- Decimal rendering of an `Int` (`fmt` `%v` on an integer value). -/
def intChars (n : Int) : GoStr :=
  if n < 0 then '-' :: natChars (-n).toNat else natChars n.toNat

/-- A rendered attribute value: `slog` values reach the formatter through
`fmt.Sprintf("%v", a.Value.Any())`; we model the two kinds the claims
exercise, strings (rendered as themselves) and integers. -/
inductive AttrValue where
  | vstr (s : GoStr)
  | vint (n : Int)
  deriving Repr, DecidableEq

/-- The `%v` rendering of an attribute value. -/
def renderValue : AttrValue → GoStr
  | .vstr s => s
  | .vint n => intChars n

/-- A key/value attribute (`slog.Attr` with its value already renderable). -/
structure Attr where
  key : GoStr
  value : AttrValue
  deriving Repr, DecidableEq

/-- The `fmt.Sprintf(" %s=%v", a.Key, a.Value.Any())`. -/
def renderAttr (a : Attr) : GoStr := ' ' :: a.key ++ '=' :: renderValue a.value

/-- A capture time, already broken into calendar fields; `r.Time.Format`
only ever renders these six numbers. -/
structure TimeVal where
  year : Nat
  month : Nat
  day : Nat
  hour : Nat
  minute : Nat
  second : Nat
  deriving Repr, DecidableEq

/-- Two-digit zero-padded field of Go's reference layout (`01`, `02`, …). -/
def pad2 (n : Nat) : GoStr := [digitChar (n / 10), digitChar n]

/-- Four-digit zero-padded year field (`2006`); faithful for years below
10000, which is the case for every reachable capture time. -/
def pad4 (n : Nat) : GoStr :=
  [digitChar (n / 1000), digitChar (n / 100), digitChar (n / 10), digitChar n]

/-- Rendering of `r.Time.Format("2006/01/02 15:04:05")`. -/
def formatTime (t : TimeVal) : GoStr :=
  pad4 t.year ++ '/' :: pad2 t.month ++ '/' :: pad2 t.day ++
    ' ' :: pad2 t.hour ++ ':' :: pad2 t.minute ++ ':' :: pad2 t.second

/-- The source frame a non-zero `r.PC` resolves to (`runtime.CallersFrames`):
a file path and a line number. -/
structure Frame where
  file : GoStr
  line : Nat
  deriving Repr, DecidableEq

/-- A log record (`slog.Record`): capture time, level, message, the resolved
call-site frame (`none` models `r.PC == 0`), and the per-call attributes. -/
structure Record where
  time : TimeVal
  level : Int
  message : GoStr
  pc : Option Frame
  attrs : List Attr
  deriving Repr, DecidableEq

/-- The `file[strings.LastIndex(file, "/")+1:]`: the final path segment (the
whole string when no `/` occurs). -/
def lastPathSegment (f : GoStr) : GoStr :=
  (f.reverse.takeWhile (fun c => c ≠ '/')).reverse

/-- Pad or truncate the call-site text to the configured width
(src/unnamed/part_000:187-192):  `loc[:w]` when longer, `%-*s` otherwise. -/
def fixWidth (w : Nat) (loc : GoStr) : GoStr :=
  if loc.length > w then loc.take w
  else loc ++ List.replicate (w - loc.length) ' '

/-- The `%-5s`: left-justified padding of the level name to five characters. -/
def pad5 (name : GoStr) : GoStr := name ++ List.replicate (5 - name.length) ' '

/-- The `name` assignment of the `switch` in `formatLevelWithColor`
(src/unnamed/part_000:231-253). -/
def levelName (l : Int) : GoStr :=
  if l ≤ LevelTrace then str "TRACE"
  else if l ≤ LevelDebug then str "DEBUG"
  else if l ≤ LevelInfo then str "INFO"
  else if l ≤ LevelWarn then str "WARN"
  else if l ≤ LevelError then str "ERROR"
  else if l ≤ LevelFatal then str "FATAL"
  else str "PANIC"

/-- The `color` assignment of the same `switch`: ERROR's configured color
is reused for FATAL and PANIC. -/
def levelColor (cfg : Config) (l : Int) : GoStr :=
  if l ≤ LevelTrace then cfg.colorTrace
  else if l ≤ LevelDebug then cfg.colorDebug
  else if l ≤ LevelInfo then cfg.colorInfo
  else if l ≤ LevelWarn then cfg.colorWarn
  else cfg.colorError

/-- The `ColoredHandler.formatLevelWithColor` (src/unnamed/part_000:227-262):
returns the (possibly colorized) padded token and the color used for the
message body (empty when colors are disabled or the level color is empty). -/
def formatLevelWithColor (cfg : Config) (l : Int) : GoStr × GoStr :=
  let paddedName := pad5 (levelName l)
  if cfg.colorsDisabled || levelColor cfg l = [] then (paddedName, [])
  else (levelColor cfg l ++ paddedName ++ colorReset, levelColor cfg l)

/-- The source segment of `Handle` (src/unnamed/part_000:176-199): empty
when the record has no PC or the frame has no file; otherwise the bracketed
fixed-width `file:line`, colorized unless disabled or the color is empty. -/
def renderSource (cfg : Config) (r : Record) : GoStr :=
  match r.pc with
  | none => []
  | some f =>
    if f.file = [] then []
    else
      let loc := fixWidth cfg.sourceWidth
        (lastPathSegment f.file ++ ':' :: natChars f.line)
      if !cfg.colorsDisabled && cfg.colorSource ≠ [] then
        cfg.colorSource ++ '[' :: loc ++ ']' :: colorReset
      else '[' :: loc ++ [']']

/-- The full line built by `ColoredHandler.Handle`
(src/unnamed/part_000:170-221): `[time] LEVEL [source] message`, the message
body carrying per-call attributes then handler-bound attributes and wrapped
in the level color when enabled, terminated by a newline. -/
def handleLine (cfg : Config) (handlerAttrs : List Attr) (r : Record) : GoStr :=
  let timeStr := formatTime r.time
  let lv := formatLevelWithColor cfg r.level
  let source := renderSource cfg r
  let msgContent := r.message ++ (r.attrs.map renderAttr).flatten ++
    (handlerAttrs.map renderAttr).flatten
  let msgContent :=
    if !cfg.colorsDisabled && lv.2 ≠ [] then lv.2 ++ msgContent ++ colorReset
    else msgContent
  '[' :: timeStr ++ ']' :: ' ' :: lv.1 ++ ' ' :: source ++ ' ' :: msgContent
    ++ ['\n']

/-! ## The sink, the handler, and the global logger facade -/

/-- A write failure (`error` returned by `io.Writer.Write`). -/
inductive WriteErr where
  | ioError
  deriving Repr, DecidableEq

/-- The output sink: the lines successfully written, whether writes fail,
and how many write calls were attempted. -/
structure Writer where
  failing : Bool
  buf : List GoStr
  attempts : Nat
  deriving Repr, DecidableEq

/-- One `Write` call on the sink: always counted as one attempt; on success
the bytes are appended, on failure an error is returned instead. -/
def Writer.write (w : Writer) (s : GoStr) : Writer × Option WriteErr :=
  if w.failing then ({ w with attempts := w.attempts + 1 }, some .ioError)
  else ({ w with buf := w.buf ++ [s], attempts := w.attempts + 1 }, none)

/-- A fresh, healthy sink. -/
def freshWriter : Writer := ⟨false, [], 0⟩

/-- A sink whose writes fail. -/
def failingWriter : Writer := ⟨true, [], 0⟩

/-- The `ColoredHandler.Handle` (src/unnamed/part_000:170-225): format the line,
write it once to the sink, and return the write's error to the caller. -/
def ColoredHandler.Handle (cfg : Config) (handlerAttrs : List Attr)
    (r : Record) (w : Writer) : Writer × Option WriteErr :=
  w.write (handleLine cfg handlerAttrs r)

/-- The `ColoredHandler.Enabled` (src/unnamed/part_000:166-168):
`l >= h.level.Level()`. -/
def ColoredHandler.Enabled (floor l : Int) : Bool := floor ≤ l

/-- The package-level state of src/glogi.go:25-30 together with the
configuration variables of part_000: `isInit`/`initOnce`, the `level`
pointer (`none` models the nil `*slog.LevelVar` before `Init`), the
configuration store with its `configLoaded` flag, and the sink. -/
structure GState where
  isInit : Bool
  levelVar : Option Int
  configLoaded : Bool
  cfg : Config
  writer : Writer
  deriving Repr, DecidableEq

/-- The process state before any call: nothing set up yet, variables at
their declared defaults, the given sink standing for `os.Stdout`. -/
def initialState (w : Writer) : GState :=
  ⟨false, none, false, defaultConfig, w⟩

/-- The `Init` (src/glogi.go:46-56): under `initOnce.Do`, set the level from
`LOG_LEVEL`, and build the handler (whose constructor runs `initConfig`). -/
def Init (env : Env) (st : GState) : GState :=
  if st.isInit then st
  else
    let lc := initConfig env st.configLoaded st.cfg
    { st with
      isInit := true
      levelVar := some (parseLevel env.logLevel)
      configLoaded := lc.1
      cfg := lc.2 }

/-- The `ensureInit` (src/glogi.go:80-84). -/
def ensureInit (env : Env) (st : GState) : GState :=
  if st.isInit then st else Init env st

/-- The `SetLevel` (src/glogi.go:59-63): `if level != nil { level.Set(...) }` —
a no-op while the `level` pointer is still nil. -/
def SetLevel (s : GoStr) (st : GState) : GState :=
  match st.levelVar with
  | none => st
  | some _ => { st with levelVar := some (parseLevel s) }

/-- What a top-level logging call delivers back to its caller: the new
global state, the record it constructed (`none` when the severity gate
returned early), and the error value the call returns.  The public
functions `Trace`/`Debug`/`Info`/`Warn`/`Error` return nothing, and
`logWithCaller` discards the handler's error with a blank assignment
(`_ = logger.Handler().Handle(...)`, src/glogi.go:100), so `callerError`
is `none` on every path. -/
structure CallResult where
  state : GState
  record : Option Record
  callerError : Option WriteErr
  deriving Repr, DecidableEq

/-- The `logWithCaller` (src/glogi.go:88-101): ensure initialization, check the
severity gate, construct the record with the captured caller frame, hand it
to the handler, and drop the handler's error. -/
def logWithCaller (env : Env) (st : GState) (lvl : Int) (msg : GoStr)
    (pc : Option Frame) (args : List Attr) (t : TimeVal) : CallResult :=
  let st := ensureInit env st
  let floor := st.levelVar.getD LevelInfo
  if !ColoredHandler.Enabled floor lvl then
    { state := st, record := none, callerError := none }
  else
    let r : Record := ⟨t, lvl, msg, pc, args⟩
    let hw := ColoredHandler.Handle st.cfg [] r st.writer
    { state := { st with writer := hw.1 }, record := some r,
      callerError := none }

/-- The `Info` (src/glogi.go:114-116); the other four leveled entry points
differ from it only in the level constant they pass. -/
def Info (env : Env) (st : GState) (msg : GoStr) (pc : Option Frame)
    (args : List Attr) (t : TimeVal) : CallResult :=
  logWithCaller env st LevelInfo msg pc args t

/-- The `Recover` (src/glogi.go:141-154): `panicVal` is what the `recover()`
builtin yields (`none` when no panic is propagating); `stackTrace` is the
`runtime.Stack` snapshot and `pc` the captured frame, used only when a
panic is being recovered. -/
def Recover (env : Env) (st : GState) (panicVal : Option GoStr)
    (pc : Option Frame) (stackTrace : GoStr) (t : TimeVal) : GState :=
  match panicVal with
  | none => st
  | some r =>
    let st := ensureInit env st
    let r2 : Record := ⟨t, LevelPanic, str "recovered: " ++ r, pc,
      [⟨str "stack", .vstr stackTrace⟩]⟩
    let hw := ColoredHandler.Handle st.cfg [] r2 st.writer
    { st with writer := hw.1 }

/-! ## Go slice semantics of `ColoredHandler.WithAttrs`

`WithAttrs` (src/unnamed/part_000:264-271) builds the derived handler's
attribute list with `append(h.attrs, attrs...)`.  A Go slice is a view
(array id, length, capacity) into a mutable backing array, and `append`
writes in place whenever the spare capacity suffices, so two derivations of
the same parent can share — and overwrite — one backing array.  We model
the backing store explicitly: a heap of arrays, each kept at its capacity
(unused slots hold `dummyAttr`). -/

/-- A Go slice header over the attribute heap. -/
structure GoSlice where
  aid : Nat
  len : Nat
  cap : Nat
  deriving Repr, DecidableEq

/-- The heap of backing arrays; index `aid` is one array's cells. -/
abbrev AttrHeap := List (List Attr)

/-- Placeholder content of not-yet-written capacity slots. -/
def dummyAttr : Attr := ⟨[], .vstr []⟩

/-- The cells of a slice's backing array. -/
def heapGet (h : AttrHeap) (aid : Nat) : List Attr := h.getD aid []

/-- The elements a slice denotes: the first `len` cells of its array. -/
def readSlice (h : AttrHeap) (s : GoSlice) : List Attr :=
  (heapGet h s.aid).take s.len

/-- Overwrite cells `i, i+1, …` of an array with `xs`. -/
def writeCells (arr : List Attr) (i : Nat) (xs : List Attr) : List Attr :=
  arr.take i ++ xs ++ arr.drop (i + xs.length)

/-- The capacity the Go runtime gives a reallocated slice: the doubling
rule of `growslice` for small slices (`needed` when it exceeds twice the
old capacity, twice the old capacity otherwise); the runtime may round
this up further to a size class, which only adds more spare capacity. -/
def growCap (old needed : Nat) : Nat := max (2 * old) needed

/-- Go `append(s, xs...)`: write in place into the shared backing array
when the capacity suffices, otherwise copy into a freshly allocated array
of capacity `growCap`. -/
def appendSlice (h : AttrHeap) (s : GoSlice) (xs : List Attr) :
    AttrHeap × GoSlice :=
  if s.len + xs.length ≤ s.cap then
    (h.set s.aid (writeCells (heapGet h s.aid) s.len xs),
     ⟨s.aid, s.len + xs.length, s.cap⟩)
  else
    let nc := growCap s.cap (s.len + xs.length)
    let contents := (heapGet h s.aid).take s.len ++ xs
    (h ++ [contents ++ List.replicate (nc - contents.length) dummyAttr],
     ⟨h.length, s.len + xs.length, nc⟩)

/-- The `nil` slice a fresh handler's `attrs` field starts as. -/
def nilSlice : GoSlice := ⟨0, 0, 0⟩

/-- The `ColoredHandler.WithAttrs` (src/unnamed/part_000:264-271) restricted to
the field the claim is about: the derived handler's attribute slice is
`append(h.attrs, attrs...)`; level, writer and groups are copied as-is. -/
def WithAttrs (h : AttrHeap) (parent : GoSlice) (xs : List Attr) :
    AttrHeap × GoSlice :=
  appendSlice h parent xs

/-! ## Concrete scenarios used by individual claims -/

/-- Width 10, colors disabled (the end-to-end scenario's configuration). -/
def c4Config : Config :=
  { defaultConfig with sourceWidth := 10, colorsDisabled := true }

/-- A post-Init state with floor INFO, the scenario configuration and a
healthy sink. -/
def c4State : GState := ⟨true, some LevelInfo, true, c4Config, freshWriter⟩

/-- A post-Init state with floor INFO, default configuration and a sink
whose writes fail. -/
def c1State : GState := ⟨true, some LevelInfo, true, defaultConfig, failingWriter⟩

/-- The state obtained by running `Init` in an empty environment
over a fresh process state. -/
def stInit : GState := Init emptyEnv (initialState freshWriter)

/-- A fixed capture time used by concrete witnesses. -/
def t0 : TimeVal := ⟨2025, 12, 26, 15, 4, 5⟩

/-- Five sibling/chained `WithAttrs` derivations under Go `append`
semantics: a parent handler accumulates attributes `a`, `b`, `c` (reaching
length 3, capacity 4), then two sibling derivations each append one more
attribute.  Returns (heap after first derivation, final heap, parent slice,
first derivation's slice, second derivation's slice). -/
def c2Scenario : AttrHeap × AttrHeap × GoSlice × GoSlice × GoSlice :=
  let s1 := WithAttrs [] nilSlice [⟨str "a", .vint 1⟩]
  let s2 := WithAttrs s1.1 s1.2 [⟨str "b", .vint 2⟩]
  let s3 := WithAttrs s2.1 s2.2 [⟨str "c", .vint 3⟩]
  let d1 := WithAttrs s3.1 s3.2 [⟨str "x", .vint 4⟩]
  let d2 := WithAttrs d1.1 s3.2 [⟨str "y", .vint 5⟩]
  (d1.1, d2.1, s3.2, d1.2, d2.2)

/-- No escape character occurs in the string. -/
abbrev NoEsc (l : GoStr) : Prop := escChar ∉ l

/-- Both ends of the string are free of whitespace (the strings
`strings.TrimSpace` leaves unchanged). -/
def Trimmed (l : GoStr) : Prop :=
  (∀ c, l.head? = some c → isGoSpace c = false) ∧
  (∀ c, l.getLast? = some c → isGoSpace c = false)

/-! # Theorems -/

/-- C10: if `Recover` runs while no panic is propagating (`recover()`
yields nil), it writes nothing to the sink and leaves the entire logger and
configuration state — the level, the config store, the `configLoaded` and
`isInit` flags, and the sink — unchanged. -/
theorem c10_recover_no_panic_noop (env : Env) (st : GState)
    (pc : Option Frame) (stackTrace : GoStr) (t : TimeVal) :
    Recover env st none pc stackTrace t = st := rfl

/-- C5: any logging call whose severity is strictly below the configured
floor (the floor in force once initialization has been ensured) returns
before constructing a record and leaves the sink untouched: no bytes are
written and no write is even attempted.  `Trace`/`Debug`/`Info`/`Warn`/
`Error` are `logWithCaller` applied to their level constants. -/
theorem c5_below_floor_no_output (env : Env) (st : GState) (lvl : Int)
    (msg : GoStr) (pc : Option Frame) (args : List Attr) (t : TimeVal)
    (h : lvl < (ensureInit env st).levelVar.getD LevelInfo) :
    (logWithCaller env st lvl msg pc args t).state.writer
        = (ensureInit env st).writer ∧
    (logWithCaller env st lvl msg pc args t).record = none := by
  have hb : ColoredHandler.Enabled
      ((ensureInit env st).levelVar.getD LevelInfo) lvl = false := by
    simp only [ColoredHandler.Enabled, decide_eq_false_iff_not]
    omega
  simp [logWithCaller, hb]

/-- Witness for C5: a `Trace` call (level −8) against the default floor
INFO writes nothing and constructs no record. -/
theorem c5_below_floor_no_output_witness :
    (logWithCaller emptyEnv (initialState freshWriter) LevelTrace (str "m")
        none [] t0).state.writer
      = (ensureInit emptyEnv (initialState freshWriter)).writer ∧
    (logWithCaller emptyEnv (initialState freshWriter) LevelTrace (str "m")
        none [] t0).record = none :=
  c5_below_floor_no_output emptyEnv (initialState freshWriter) LevelTrace
    (str "m") none [] t0 (by decide)

/-- C8: the rendered call-site bracket content is always exactly the
configured width: the first `w` characters when the call-site string is
longer, the string right-padded with spaces otherwise; and the default
width is 20. -/
theorem c8_fixed_width (s : GoStr) (w : Nat) :
    (fixWidth w s).length = w ∧
    (s.length > w → fixWidth w s = s.take w) ∧
    (s.length ≤ w → fixWidth w s = s ++ List.replicate (w - s.length) ' ') ∧
    defaultConfig.sourceWidth = 20 := by
  refine ⟨?_, fun hgt => by simp [fixWidth, hgt], fun hle => ?_, rfl⟩
  · unfold fixWidth
    split
    · simp only [List.length_take]
      omega
    · simp only [List.length_append, List.length_replicate]
      omega
  · have : ¬ s.length > w := by omega
    simp [fixWidth, this]

/-- Witness for C8: a 9-character call-site truncated to width 4 and padded
to width 12. -/
theorem c8_fixed_width_witness :
    fixWidth 4 (str "app.go:42") = (str "app.go:42").take 4 ∧
    fixWidth 12 (str "app.go:42")
      = str "app.go:42" ++ List.replicate (12 - (str "app.go:42").length) ' ' :=
  ⟨(c8_fixed_width (str "app.go:42") 4).2.1 (by decide),
   (c8_fixed_width (str "app.go:42") 12).2.2.1 (by decide)⟩

/-- C3 fails as stated: before the first `Init` the `level` pointer is
still nil, so `SetLevel("ERROR")` is a no-op, and the subsequent `Init`
sets the floor from the environment (INFO here), not to the ERROR value the
claim promises for "callable at any time after process start". -/
theorem c3_counterexample :
    SetLevel (str "ERROR") (initialState freshWriter)
      = initialState freshWriter ∧
    (Init emptyEnv (SetLevel (str "ERROR")
        (initialState freshWriter))).levelVar = some LevelInfo ∧
    parseLevel (str "ERROR") = LevelError ∧
    LevelInfo ≠ LevelError := by decide

/-- C3 (amended): once the logger has been set up (the `level` pointer is
non-nil), `SetLevel(s)` replaces the floor with the value parsed from `s`,
and every subsequent logging call is gated by the new floor; before the
first `Init`, `SetLevel` is a no-op. -/
theorem c3_amended_setlevel (st : GState) (s : GoStr)
    (hi : st.isInit = true) (hl : st.levelVar.isSome) :
    (SetLevel s st).levelVar = some (parseLevel s) ∧
    ∀ env lvl msg pc args t,
      ((logWithCaller env (SetLevel s st) lvl msg pc args t).record.isSome
        ↔ parseLevel s ≤ lvl) := by
  obtain ⟨f, hf⟩ := Option.isSome_iff_exists.mp hl
  constructor
  · simp [SetLevel, hf]
  · intro env lvl msg pc args t
    have hs : SetLevel s st = { st with levelVar := some (parseLevel s) } := by
      simp [SetLevel, hf]
    rw [hs]
    have he : ensureInit env { st with levelVar := some (parseLevel s) }
        = { st with levelVar := some (parseLevel s) } := by
      simp [ensureInit, hi]
    rw [logWithCaller, he]
    by_cases hle : parseLevel s ≤ lvl
    · simp [ColoredHandler.Enabled, hle, ColoredHandler.Handle]
    · simp [ColoredHandler.Enabled, hle]

/-- Witness for C3 (amended): on a post-Init state, `SetLevel("ERROR")`
sets the floor to 8 and a subsequent WARN call is gated. -/
theorem c3_amended_setlevel_witness :
    (SetLevel (str "ERROR") stInit).levelVar
      = some (parseLevel (str "ERROR")) ∧
    ((logWithCaller emptyEnv (SetLevel (str "ERROR") stInit) LevelWarn
        (str "m") none [] t0).record.isSome
      ↔ parseLevel (str "ERROR") ≤ LevelWarn) :=
  ⟨(c3_amended_setlevel stInit (str "ERROR") (by decide) (by decide)).1,
   (c3_amended_setlevel stInit (str "ERROR") (by decide) (by decide)).2
     emptyEnv LevelWarn (str "m") none [] t0⟩

/-- C1 fails as stated: with a failing sink and an enabled severity, the
handler's `Handle` does return the I/O error, but `logWithCaller` discards
it with a blank assignment and the public logging call (here `Info`)
returns nothing — the caller of the logging call receives no error value,
so the failure is silently dropped. -/
theorem c1_counterexample :
    (ColoredHandler.Handle defaultConfig []
        ⟨t0, LevelInfo, str "m", none, []⟩ failingWriter).2 = some .ioError ∧
    (Info emptyEnv c1State (str "m") none [] t0).record.isSome = true ∧
    (Info emptyEnv c1State (str "m") none [] t0).state.writer.attempts = 1 ∧
    (Info emptyEnv c1State (str "m") none [] t0).callerError = none := by
  decide

/-- C1 (amended): for a record whose severity passes the floor, the sink
write is attempted exactly once and never retried, and the handler's
`Handle` returns the write failure to its own caller; but the public
logging functions return no error value — `logWithCaller` discards the
handler's error with `_ =`, so the failure does not reach the caller of
the logging call. -/
theorem c1_amended_propagation (cfg : Config) (ha : List Attr) (r : Record)
    (w : Writer) (env : Env) (st : GState) (lvl : Int) (msg : GoStr)
    (pc : Option Frame) (args : List Attr) (t : TimeVal)
    (h : ColoredHandler.Enabled
      ((ensureInit env st).levelVar.getD LevelInfo) lvl = true) :
    (ColoredHandler.Handle cfg ha r w).2 = (w.write (handleLine cfg ha r)).2 ∧
    (ColoredHandler.Handle cfg ha r w).1.attempts = w.attempts + 1 ∧
    (w.failing = true → (ColoredHandler.Handle cfg ha r w).2 = some .ioError) ∧
    (logWithCaller env st lvl msg pc args t).state.writer.attempts
      = (ensureInit env st).writer.attempts + 1 ∧
    (logWithCaller env st lvl msg pc args t).callerError = none := by
  refine ⟨rfl, ?_, ?_, ?_, ?_⟩
  · unfold ColoredHandler.Handle Writer.write
    split <;> rfl
  · intro hf
    simp [ColoredHandler.Handle, Writer.write, hf]
  · rw [logWithCaller]
    simp only [h, Bool.not_true, Bool.false_eq_true, if_false]
    unfold ColoredHandler.Handle Writer.write
    split <;> rfl
  · rw [logWithCaller]
    simp [h]

/-- Witness for C1 (amended): concrete failing-sink INFO call. -/
theorem c1_amended_propagation_witness :
    (ColoredHandler.Handle defaultConfig []
        ⟨t0, LevelInfo, str "m", none, []⟩ failingWriter).2
      = (failingWriter.write (handleLine defaultConfig []
        ⟨t0, LevelInfo, str "m", none, []⟩)).2 ∧
    (ColoredHandler.Handle defaultConfig []
        ⟨t0, LevelInfo, str "m", none, []⟩ failingWriter).1.attempts
      = failingWriter.attempts + 1 ∧
    (failingWriter.failing = true →
      (ColoredHandler.Handle defaultConfig []
        ⟨t0, LevelInfo, str "m", none, []⟩ failingWriter).2 = some .ioError) ∧
    (logWithCaller emptyEnv c1State LevelInfo (str "m") none []
        t0).state.writer.attempts
      = (ensureInit emptyEnv c1State).writer.attempts + 1 ∧
    (logWithCaller emptyEnv c1State LevelInfo (str "m") none []
        t0).callerError = none :=
  c1_amended_propagation defaultConfig []
    ⟨t0, LevelInfo, str "m", none, []⟩ failingWriter emptyEnv c1State
    LevelInfo (str "m") none [] t0 (by decide)

/-- C2: the code has the classic Go `append` aliasing bug.  A parent
handler whose attribute slice has spare capacity (here: attributes `a`,
`b`, `c` with capacity 4 under the runtime's doubling growth) shares its
backing array with both `WithAttrs` derivations: before the second
derivation exists, the first renders `a b c x`; creating the sibling
derivation overwrites the shared cell, after which the first derivation
renders `a b c y`.  The parent's own list stays `a b c` throughout, but
the derivations are not independent, violating the spec's "structural
sharing forbidden" requirement (and `slog`'s handler contract). -/
theorem c2_sharing_bug_demo :
    readSlice c2Scenario.1 c2Scenario.2.2.2.1
      = [⟨str "a", .vint 1⟩, ⟨str "b", .vint 2⟩, ⟨str "c", .vint 3⟩,
         ⟨str "x", .vint 4⟩] ∧
    readSlice c2Scenario.2.1 c2Scenario.2.2.2.1
      = [⟨str "a", .vint 1⟩, ⟨str "b", .vint 2⟩, ⟨str "c", .vint 3⟩,
         ⟨str "y", .vint 5⟩] ∧
    readSlice c2Scenario.2.1 c2Scenario.2.2.2.2
      = [⟨str "a", .vint 1⟩, ⟨str "b", .vint 2⟩, ⟨str "c", .vint 3⟩,
         ⟨str "y", .vint 5⟩] ∧
    readSlice c2Scenario.2.1 c2Scenario.2.2.1
      = [⟨str "a", .vint 1⟩, ⟨str "b", .vint 2⟩, ⟨str "c", .vint 3⟩] ∧
    readSlice c2Scenario.1 c2Scenario.2.2.2.1
      ≠ readSlice c2Scenario.2.1 c2Scenario.2.2.2.1 := by decide

/-- C6 fails as stated on whitespace-padded input: `" x "` is non-empty,
is not a known color name, is not an integer, and contains no escape
marker, yet the resolver does not return it verbatim — it returns the
trimmed `"x"`. -/
theorem c6_counterexample :
    str " x " ≠ [] ∧
    lookupName (goToLower (str " x ")) = none ∧
    containsEsc (str " x ") = false ∧
    containsPat (str " x ") = false ∧
    atoiOk (str " x ") = false ∧
    parseColor (str " x ") = str "x" ∧
    parseColor (str " x ") ≠ str " x " := by decide

/-- C4 fails as stated: in the end-to-end scenario (floor INFO, width 10,
colors disabled, `Info("server started", "port", 8080)` from `app.go:42`)
the call-site bracket of the written line holds `app.go:42` padded with a
single space to width 10, whereas the claimed template shows two spaces
(an 11-character bracket content, contradicting the claimed width of 10). -/
theorem c4_counterexample :
    (Info emptyEnv c4State (str "server started") (some ⟨str "app.go", 42⟩)
        [⟨str "port", .vint 8080⟩] t0).state.writer.buf
      = [str "[2025/12/26 15:04:05] INFO  [app.go:42 ] server started port=8080\n"] ∧
    str "[2025/12/26 15:04:05] INFO  [app.go:42 ] server started port=8080\n"
      ≠ str "[2025/12/26 15:04:05] INFO  [app.go:42  ] server started port=8080\n" := by
  decide

/-- C4 (amended): in the same scenario the written line is exactly
`[<timestamp>] INFO  [app.go:42 ] server started port=8080` followed by
one newline — the 5-character level token, one joining space, and the
bracket content `app.go:42` right-padded to exactly the configured width
of 10 (one pad space). -/
theorem c4_amended_line (env : Env) (t : TimeVal) :
    (Info env c4State (str "server started") (some ⟨str "app.go", 42⟩)
        [⟨str "port", .vint 8080⟩] t).state.writer.buf
      = ['[' :: formatTime t
          ++ str "] INFO  [app.go:42 ] server started port=8080\n"] := by
  have hbuf : (Info env c4State (str "server started")
      (some ⟨str "app.go", 42⟩) [⟨str "port", .vint 8080⟩] t).state.writer.buf
      = [handleLine c4Config []
          ⟨t, LevelInfo, str "server started", some ⟨str "app.go", 42⟩,
           [⟨str "port", .vint 8080⟩]⟩] := rfl
  rw [hbuf]
  refine congrArg (fun x => [x]) ?_
  simp only [handleLine]
  rw [show formatLevelWithColor c4Config LevelInfo = (str "INFO ", []) from
    by decide]
  rw [show renderSource c4Config ⟨t, LevelInfo, str "server started",
        some ⟨str "app.go", 42⟩, [⟨str "port", .vint 8080⟩]⟩
      = str "[app.go:42 ]" from rfl]
  exact congrArg (fun x => '[' :: formatTime t ++ x) (by decide)

/-- C6 (amended): the resolver maps `red`, `31`, the real escape and its
textual placeholder all to the ANSI red escape; maps every input that
trims to the empty string or (case-insensitively, after trimming) to
`none`/`off` to the empty string; and for any other input whose trimmed
form is non-empty, matches no color name, contains no escape marker and is
not an integer, it returns the *whitespace-trimmed* input verbatim.  It is
a total function — no input is rejected. -/
theorem c6_amended_resolver :
    (parseColor (str "red") = str "\x1b[31m" ∧
     parseColor (str "31") = str "\x1b[31m" ∧
     parseColor (str "\x1b[31m") = str "\x1b[31m" ∧
     parseColor (str "\\033[31m") = str "\x1b[31m") ∧
    (∀ c : GoStr,
      (trimSpace c = [] ∨ goToLower (trimSpace c) = str "none" ∨
        goToLower (trimSpace c) = str "off") →
      parseColor c = []) ∧
    (∀ c : GoStr,
      trimSpace c ≠ [] →
      lookupName (goToLower (trimSpace c)) = none →
      containsEsc (trimSpace c) = false →
      containsPat (trimSpace c) = false →
      atoiOk (trimSpace c) = false →
      parseColor c = trimSpace c) := by
  refine ⟨by decide, ?_, ?_⟩
  · intro c h
    rcases h with h | h | h
    · simp [parseColor, parseColorT, h]
    · have ht : trimSpace c ≠ [] := by
        intro h0; rw [h0] at h; exact absurd h (by decide)
      rw [parseColor, parseColorT, if_neg ht, h,
        show lookupName (str "none") = some [] from by decide]
    · have ht : trimSpace c ≠ [] := by
        intro h0; rw [h0] at h; exact absurd h (by decide)
      rw [parseColor, parseColorT, if_neg ht, h,
        show lookupName (str "off") = some [] from by decide]
  · intro c ht hname hesc hpat hatoi
    rw [parseColor, parseColorT, if_neg ht, hname, hesc, hpat]
    simp [atoiOk] at hatoi
    simp [atoiOk, hatoi]

/-- Witness for C6 (amended): `" OFF "` resolves to empty; `"purple"` is
passed through trimmed-verbatim. -/
theorem c6_amended_resolver_witness :
    parseColor (str " OFF ") = [] ∧
    parseColor (str "purple") = trimSpace (str "purple") :=
  ⟨c6_amended_resolver.2.1 (str " OFF ") (Or.inr (Or.inr (by decide))),
   c6_amended_resolver.2.2 (str "purple") (by decide) (by decide) (by decide)
     (by decide) (by decide)⟩

/-! ## Escape-freedom lemmas (towards C7) -/

theorem noEsc_append {a b : GoStr} : NoEsc (a ++ b) ↔ NoEsc a ∧ NoEsc b := by
  simp [NoEsc, List.mem_append, not_or]

theorem noEsc_cons {c : Char} {a : GoStr} :
    NoEsc (c :: a) ↔ escChar ≠ c ∧ NoEsc a := by
  simp [NoEsc, List.mem_cons, not_or]

theorem digitChar_ne_esc (n : Nat) : digitChar n ≠ escChar := by
  unfold digitChar
  have h : n % 10 = 0 ∨ n % 10 = 1 ∨ n % 10 = 2 ∨ n % 10 = 3 ∨ n % 10 = 4 ∨
      n % 10 = 5 ∨ n % 10 = 6 ∨ n % 10 = 7 ∨ n % 10 = 8 ∨ n % 10 = 9 := by
    omega
  rcases h with h | h | h | h | h | h | h | h | h | h <;> rw [h] <;> decide

theorem noEsc_natCharsCore (fuel n : Nat) (acc : GoStr) (h : NoEsc acc) :
    NoEsc (natCharsCore fuel n acc) := by
  induction fuel generalizing n acc with
  | zero => exact h
  | succ fuel ih =>
    simp only [natCharsCore]
    split
    · exact noEsc_cons.mpr ⟨(digitChar_ne_esc n).symm, h⟩
    · exact ih _ _ (noEsc_cons.mpr ⟨(digitChar_ne_esc n).symm, h⟩)

theorem noEsc_natChars (n : Nat) : NoEsc (natChars n) :=
  noEsc_natCharsCore _ _ _ (by simp [NoEsc])

theorem noEsc_intChars (n : Int) : NoEsc (intChars n) := by
  unfold intChars
  split
  · exact noEsc_cons.mpr ⟨by decide, noEsc_natChars _⟩
  · exact noEsc_natChars _

theorem noEsc_pad2 (n : Nat) : NoEsc (pad2 n) := by
  refine noEsc_cons.mpr ⟨(digitChar_ne_esc _).symm, ?_⟩
  exact noEsc_cons.mpr ⟨(digitChar_ne_esc _).symm, by simp [NoEsc]⟩

theorem noEsc_pad4 (n : Nat) : NoEsc (pad4 n) := by
  refine noEsc_cons.mpr ⟨(digitChar_ne_esc _).symm, ?_⟩
  refine noEsc_cons.mpr ⟨(digitChar_ne_esc _).symm, ?_⟩
  exact noEsc_cons.mpr ⟨(digitChar_ne_esc _).symm,
    noEsc_cons.mpr ⟨(digitChar_ne_esc _).symm, by simp [NoEsc]⟩⟩

theorem noEsc_formatTime (t : TimeVal) : NoEsc (formatTime t) := by
  unfold formatTime
  simp only [List.cons_append, List.append_assoc]
  refine noEsc_append.mpr ⟨noEsc_pad4 _, ?_⟩
  refine noEsc_cons.mpr ⟨by decide, ?_⟩
  refine noEsc_append.mpr ⟨noEsc_pad2 _, ?_⟩
  refine noEsc_cons.mpr ⟨by decide, ?_⟩
  refine noEsc_append.mpr ⟨noEsc_pad2 _, ?_⟩
  refine noEsc_cons.mpr ⟨by decide, ?_⟩
  refine noEsc_append.mpr ⟨noEsc_pad2 _, ?_⟩
  refine noEsc_cons.mpr ⟨by decide, ?_⟩
  exact noEsc_append.mpr ⟨noEsc_pad2 _, noEsc_cons.mpr ⟨by decide, noEsc_pad2 _⟩⟩

theorem noEsc_replicate_space (n : Nat) : NoEsc (List.replicate n ' ') := by
  intro hmem
  have := List.eq_of_mem_replicate hmem
  exact absurd this (by decide)

theorem noEsc_take {s : GoStr} (n : Nat) (h : NoEsc s) : NoEsc (s.take n) :=
  fun hmem => h (List.mem_of_mem_take hmem)

theorem noEsc_fixWidth {s : GoStr} (w : Nat) (h : NoEsc s) :
    NoEsc (fixWidth w s) := by
  unfold fixWidth
  split
  · exact noEsc_take _ h
  · exact noEsc_append.mpr ⟨h, noEsc_replicate_space _⟩

theorem noEsc_pad5 {s : GoStr} (h : NoEsc s) : NoEsc (pad5 s) :=
  noEsc_append.mpr ⟨h, noEsc_replicate_space _⟩

theorem noEsc_levelName (l : Int) : NoEsc (levelName l) := by
  unfold levelName
  split
  · decide
  · split
    · decide
    · split
      · decide
      · split
        · decide
        · split
          · decide
          · split <;> decide

theorem noEsc_lastPathSegment {f : GoStr} (h : NoEsc f) :
    NoEsc (lastPathSegment f) := by
  intro hmem
  unfold lastPathSegment at hmem
  rw [List.mem_reverse] at hmem
  exact h (List.mem_reverse.mp ((List.takeWhile_sublist _).mem hmem))

theorem noEsc_renderAttr {a : Attr} (hk : NoEsc a.key)
    (hv : NoEsc (renderValue a.value)) : NoEsc (renderAttr a) := by
  unfold renderAttr
  simp only [List.cons_append, List.append_assoc]
  exact noEsc_cons.mpr ⟨by decide,
    noEsc_append.mpr ⟨hk, noEsc_cons.mpr ⟨by decide, hv⟩⟩⟩

theorem noEsc_attrBlock {l : List Attr}
    (h : ∀ a ∈ l, NoEsc a.key ∧ NoEsc (renderValue a.value)) :
    NoEsc (l.map renderAttr).flatten := by
  intro hmem
  rw [List.mem_flatten] at hmem
  obtain ⟨m, hm, hx⟩ := hmem
  rw [List.mem_map] at hm
  obtain ⟨a, ha, rfl⟩ := hm
  exact noEsc_renderAttr (h a ha).1 (h a ha).2 hx

theorem formatLevel_disabled {cfg : Config} (l : Int)
    (hd : cfg.colorsDisabled = true) :
    (formatLevelWithColor cfg l).2 = [] ∧
    NoEsc (formatLevelWithColor cfg l).1 := by
  unfold formatLevelWithColor
  rw [hd]
  simp only [Bool.true_or, if_true]
  exact ⟨by trivial, noEsc_pad5 (noEsc_levelName l)⟩

theorem noEsc_renderSource {cfg : Config} {r : Record}
    (hd : cfg.colorsDisabled = true)
    (hfile : ∀ f, r.pc = some f → NoEsc f.file) :
    NoEsc (renderSource cfg r) := by
  unfold renderSource
  split
  · simp [NoEsc]
  · next f hf =>
    split
    · simp [NoEsc]
    · rw [hd]
      simp only [Bool.not_true, Bool.false_and, Bool.false_eq_true, if_false]
      refine noEsc_cons.mpr ⟨by decide, ?_⟩
      refine noEsc_append.mpr ⟨?_, by decide⟩
      refine noEsc_fixWidth _ (noEsc_append.mpr ⟨?_, ?_⟩)
      · exact noEsc_lastPathSegment (hfile f hf)
      · exact noEsc_cons.mpr ⟨by decide, noEsc_natChars _⟩

/-- C7: when colors are globally disabled, the line produced by the
handler contains no ANSI escape byte, whatever the per-level and source
color strings are — provided the record-supplied texts (message, attribute
keys and rendered values, source file name) are themselves escape-free. -/
theorem c7_no_colors_no_escape (cfg : Config) (hattrs : List Attr)
    (r : Record) (hd : cfg.colorsDisabled = true)
    (hmsg : NoEsc r.message)
    (hatt : ∀ a ∈ r.attrs ++ hattrs, NoEsc a.key ∧ NoEsc (renderValue a.value))
    (hfile : ∀ f, r.pc = some f → NoEsc f.file) :
    NoEsc (handleLine cfg hattrs r) := by
  obtain ⟨hlv2, hlv1⟩ := formatLevel_disabled r.level hd
  unfold handleLine
  rw [hd]
  simp only [Bool.not_true, Bool.false_and, Bool.false_eq_true, if_false,
    List.cons_append, List.append_assoc]
  refine noEsc_cons.mpr ⟨by decide, ?_⟩
  refine noEsc_append.mpr ⟨noEsc_formatTime _, ?_⟩
  refine noEsc_cons.mpr ⟨by decide, noEsc_cons.mpr ⟨by decide, ?_⟩⟩
  refine noEsc_append.mpr ⟨hlv1, ?_⟩
  refine noEsc_cons.mpr ⟨by decide, ?_⟩
  refine noEsc_append.mpr ⟨noEsc_renderSource hd hfile, ?_⟩
  refine noEsc_cons.mpr ⟨by decide, ?_⟩
  refine noEsc_append.mpr ⟨hmsg, ?_⟩
  refine noEsc_append.mpr ⟨?_, ?_⟩
  · exact noEsc_attrBlock fun a ha => hatt a (List.mem_append_left _ ha)
  · refine noEsc_append.mpr ⟨?_, by decide⟩
    exact noEsc_attrBlock fun a ha => hatt a (List.mem_append_right _ ha)

/-- Witness for C7: a concrete record logged through `DisableColors` of the
default configuration (whose per-level and source colors are non-empty)
yields an escape-free line. -/
theorem c7_no_colors_no_escape_witness :
    NoEsc (handleLine (DisableColors defaultConfig) []
      ⟨t0, LevelError, str "boom", some ⟨str "app.go", 7⟩,
       [⟨str "err", .vstr (str "timeout")⟩]⟩) :=
  c7_no_colors_no_escape (DisableColors defaultConfig) []
    ⟨t0, LevelError, str "boom", some ⟨str "app.go", 7⟩,
     [⟨str "err", .vstr (str "timeout")⟩]⟩
    (by decide) (by decide) (by decide)
    (by intro f hf; injection hf with h; rw [← h]; decide)

/-! ## Trimming and replacement lemmas (towards C9) -/

theorem head_dropWhile_not_space (l : GoStr) (c : Char)
    (h : (l.dropWhile isGoSpace).head? = some c) : isGoSpace c = false := by
  have hh := List.head?_dropWhile_not isGoSpace l
  rw [h] at hh
  exact hh

theorem dropWhile_eq_self_of (l : GoStr)
    (h : ∀ c, l.head? = some c → isGoSpace c = false) :
    l.dropWhile isGoSpace = l := by
  cases l with
  | nil => rfl
  | cons a l => simp [List.dropWhile_cons, h a rfl]

theorem trimSpace_trimmed (l : GoStr) : Trimmed (trimSpace l) := by
  constructor
  · intro c hc
    rw [trimSpace, List.head?_reverse] at hc
    obtain ⟨u, hu⟩ := @List.dropWhile_suffix Char (trimLeft l).reverse isGoSpace
    have hy : (trimLeft l).reverse.getLast? = some c := by
      rw [← hu, List.getLast?_append, hc]
      rfl
    rw [List.getLast?_reverse] at hy
    exact head_dropWhile_not_space l c hy
  · intro c hc
    rw [trimSpace, List.getLast?_reverse] at hc
    exact head_dropWhile_not_space _ c hc

theorem trimmed_eq_self {l : GoStr} (h : Trimmed l) : trimSpace l = l := by
  have h1 : trimLeft l = l := dropWhile_eq_self_of l h.1
  have h2 : l.reverse.dropWhile isGoSpace = l.reverse := by
    apply dropWhile_eq_self_of
    intro c hc
    rw [List.head?_reverse] at hc
    exact h.2 c hc
  rw [trimSpace, h1, h2, List.reverse_reverse]

theorem replEsc_nil_iff (l : GoStr) : replEsc l = [] ↔ l = [] := by
  induction l using replEsc.induct with
  | case1 => simp [replEsc.eq_1]
  | case2 rest ih => rw [replEsc.eq_2]; simp
  | case3 c rest hne ih => rw [replEsc.eq_3 c rest hne]; simp

theorem replEsc_head? (l : GoStr) :
    (replEsc l).head? = some escChar ∨ (replEsc l).head? = l.head? := by
  induction l using replEsc.induct with
  | case1 => exact Or.inr rfl
  | case2 rest ih => rw [replEsc.eq_2]; exact Or.inl rfl
  | case3 c rest hne ih => rw [replEsc.eq_3 c rest hne]; exact Or.inr rfl

theorem getLast?_cons_of_ne_nil {a : Char} {l : GoStr} (h : l ≠ []) :
    (a :: l).getLast? = l.getLast? := by
  obtain ⟨x, xs, rfl⟩ := List.exists_cons_of_ne_nil h
  exact List.getLast?_cons_cons

theorem replEsc_getLast? (l : GoStr) :
    (replEsc l).getLast? = some escChar ∨
    (replEsc l).getLast? = l.getLast? := by
  induction l using replEsc.induct with
  | case1 => exact Or.inr rfl
  | case2 rest ih =>
    rw [replEsc.eq_2]
    rcases eq_or_ne rest [] with rfl | hr
    · rw [replEsc.eq_1]
      exact Or.inl rfl
    · have hne2 : replEsc rest ≠ [] := fun hz => hr ((replEsc_nil_iff rest).mp hz)
      rw [getLast?_cons_of_ne_nil hne2]
      have hrhs : ('\\' :: '0' :: '3' :: '3' :: rest).getLast? = rest.getLast? := by
        rw [getLast?_cons_of_ne_nil (by simp), getLast?_cons_of_ne_nil (by simp),
          getLast?_cons_of_ne_nil (by simp), getLast?_cons_of_ne_nil hr]
      rw [hrhs]
      exact ih
  | case3 c rest hne ih =>
    rw [replEsc.eq_3 c rest hne]
    rcases eq_or_ne rest [] with rfl | hr
    · rw [replEsc.eq_1]
      exact Or.inr rfl
    · have hne2 : replEsc rest ≠ [] := fun hz => hr ((replEsc_nil_iff rest).mp hz)
      rw [getLast?_cons_of_ne_nil hne2, getLast?_cons_of_ne_nil hr]
      exact ih

theorem esc_mem_replEsc {l : GoStr} (h : escChar ∈ l ∨ patText <:+: l) :
    escChar ∈ replEsc l := by
  induction l using replEsc.induct with
  | case1 =>
    rcases h with h | h
    · simp at h
    · exact absurd (h.subset (by decide : '\\' ∈ patText)) (by simp)
  | case2 rest ih =>
    rw [replEsc.eq_2]
    exact List.mem_cons_self _ _
  | case3 c rest hne ih =>
    rw [replEsc.eq_3 c rest hne]
    rcases h with h | h
    · rcases List.mem_cons.mp h with h | h
      · rw [h]
        exact List.mem_cons_self _ _
      · exact List.mem_cons_of_mem _ (ih (Or.inl h))
    · rcases List.infix_cons_iff.mp h with h | h
      · exfalso
        rw [show patText = '\\' :: '0' :: '3' :: '3' :: ([] : GoStr) from rfl,
          List.cons_prefix_cons] at h
        obtain ⟨hc, h⟩ := h
        obtain ⟨t, ht⟩ := h
        simp only [List.cons_append, List.nil_append] at ht
        exact hne t hc.symm ht.symm
      · exact List.mem_cons_of_mem _ (ih (Or.inr h))

theorem prefix_replEsc_transfer (l : GoStr) :
    ∀ ps : GoStr, ps ≠ [] → escChar ∉ ps → ps <+: replEsc l → ps <+: l := by
  induction l using replEsc.induct with
  | case1 =>
    intro ps h1 h2 h3
    rwa [replEsc.eq_1] at h3
  | case2 rest ih =>
    intro ps h1 h2 h3
    rw [replEsc.eq_2] at h3
    obtain ⟨p, ps2, rfl⟩ := List.exists_cons_of_ne_nil h1
    rw [List.cons_prefix_cons] at h3
    exfalso
    apply h2
    rw [← h3.1]
    exact List.mem_cons_self _ _
  | case3 c rest hne ih =>
    intro ps h1 h2 h3
    rw [replEsc.eq_3 c rest hne] at h3
    obtain ⟨p, ps2, rfl⟩ := List.exists_cons_of_ne_nil h1
    rw [List.cons_prefix_cons] at h3 ⊢
    refine ⟨h3.1, ?_⟩
    rcases eq_or_ne ps2 [] with rfl | hp2
    · exact List.nil_prefix
    · exact ih ps2 hp2 (fun hm => h2 (List.mem_cons_of_mem _ hm)) h3.2

theorem no_pat_infix_replEsc (l : GoStr) : ¬ patText <:+: replEsc l := by
  induction l using replEsc.induct with
  | case1 =>
    rw [replEsc.eq_1]
    intro h
    exact absurd (h.subset (by decide : '\\' ∈ patText)) (by simp)
  | case2 rest ih =>
    rw [replEsc.eq_2]
    intro h
    rcases List.infix_cons_iff.mp h with h | h
    · rw [show patText = '\\' :: '0' :: '3' :: '3' :: ([] : GoStr) from rfl,
        List.cons_prefix_cons] at h
      exact absurd h.1 (by decide)
    · exact ih h
  | case3 c rest hne ih =>
    rw [replEsc.eq_3 c rest hne]
    intro h
    rcases List.infix_cons_iff.mp h with h | h
    · rw [show patText = '\\' :: '0' :: '3' :: '3' :: ([] : GoStr) from rfl,
        List.cons_prefix_cons] at h
      obtain ⟨hc, htail⟩ := h
      have htr := prefix_replEsc_transfer rest ('0' :: '3' :: '3' :: [])
        (by simp) (by decide) htail
      obtain ⟨t, ht⟩ := htr
      simp only [List.cons_append, List.nil_append] at ht
      exact hne t hc.symm ht.symm
    · exact ih h

theorem replEsc_eq_self_of_no_pat {l : GoStr} (h : ¬ patText <:+: l) :
    replEsc l = l := by
  induction l using replEsc.induct with
  | case1 => rfl
  | case2 rest ih =>
    exfalso
    apply h
    exact (show patText <+: '\\' :: '0' :: '3' :: '3' :: rest from ⟨rest, rfl⟩).isInfix
  | case3 c rest hne ih =>
    rw [replEsc.eq_3 c rest hne,
      ih (fun hi => h (List.infix_cons_iff.mpr (Or.inr hi)))]

theorem trimmed_replEsc {l : GoStr} (h : Trimmed l) : Trimmed (replEsc l) := by
  constructor
  · intro c hc
    rcases replEsc_head? l with hh | hh
    · rw [hh] at hc
      injection hc with h2
      rw [← h2]
      decide
    · rw [hh] at hc
      exact h.1 c hc
  · intro c hc
    rcases replEsc_getLast? l with hh | hh
    · rw [hh] at hc
      injection hc with h2
      rw [← h2]
      decide
    · rw [hh] at hc
      exact h.2 c hc

/-! ## Resolver branch lemmas (towards C9) -/

theorem esc_mem_goToLower {l : GoStr} (h : escChar ∈ l) :
    escChar ∈ goToLower l :=
  List.mem_map.mpr ⟨escChar, h, by decide⟩

theorem lookupName_none_of_esc {l : GoStr} (h : escChar ∈ l) :
    lookupName (goToLower l) = none := by
  have hm := esc_mem_goToLower h
  have hx : ∀ s : GoStr, escChar ∉ s → goToLower l ≠ s :=
    fun s hs he => hs (he ▸ hm)
  rw [lookupName,
    if_neg (hx (str "red") (by decide)), if_neg (hx (str "green") (by decide)),
    if_neg (hx (str "yellow") (by decide)), if_neg (hx (str "blue") (by decide)),
    if_neg (hx (str "magenta") (by decide)), if_neg (hx (str "cyan") (by decide)),
    if_neg (hx (str "white") (by decide)),
    if_neg (not_or.mpr ⟨hx (str "gray") (by decide), hx (str "grey") (by decide)⟩),
    if_neg (not_or.mpr ⟨hx (str "none") (by decide), hx (str "off") (by decide)⟩)]

theorem containsEsc_iff {l : GoStr} : containsEsc l = true ↔ escChar ∈ l := by
  simp [containsEsc]

theorem parseColorT_fixed_escaped {o : GoStr} (h1 : escChar ∈ o)
    (h2 : ¬ patText <:+: o) : parseColorT o = o := by
  have hne : o ≠ [] := List.ne_nil_of_mem h1
  rw [parseColorT, if_neg hne, lookupName_none_of_esc h1]
  rw [show containsEsc o = true from containsEsc_iff.mpr h1]
  simp only [Bool.true_or, if_true]
  exact replEsc_eq_self_of_no_pat h2

theorem goAtoiDigits_isSome {ds : GoStr} {neg : Bool}
    (h : (goAtoiDigits ds neg).isSome = true) :
    ds ≠ [] ∧ ds.all isDigitCh = true := by
  unfold goAtoiDigits at h
  by_cases h1 : ds = []
  · simp [h1] at h
  · by_cases h2 : ds.all isDigitCh
    · exact ⟨h1, h2⟩
    · simp [h1, h2] at h

theorem atoiOk_mem {l : GoStr} (h : atoiOk l = true) :
    ∀ x ∈ l, isDigitCh x = true ∨ x = '-' ∨ x = '+' := by
  intro x hx
  unfold atoiOk at h
  cases l with
  | nil => simp at hx
  | cons c rest =>
    rw [show goAtoi (c :: rest) =
        (if c = '-' then goAtoiDigits rest true
         else if c = '+' then goAtoiDigits rest false
         else goAtoiDigits (c :: rest) false) from rfl] at h
    by_cases h1 : c = '-'
    · rw [if_pos h1] at h
      rcases List.mem_cons.mp hx with rfl | hx
      · exact Or.inr (Or.inl h1)
      · exact Or.inl (List.all_eq_true.mp (goAtoiDigits_isSome h).2 x hx)
    · rw [if_neg h1] at h
      by_cases h2 : c = '+'
      · rw [if_pos h2] at h
        rcases List.mem_cons.mp hx with rfl | hx
        · exact Or.inr (Or.inr h2)
        · exact Or.inl (List.all_eq_true.mp (goAtoiDigits_isSome h).2 x hx)
      · rw [if_neg h2] at h
        exact Or.inl (List.all_eq_true.mp (goAtoiDigits_isSome h).2 x hx)

theorem atoiOk_no_backslash {l : GoStr} (h : atoiOk l = true) : '\\' ∉ l := by
  intro hm
  rcases atoiOk_mem h _ hm with hd | hd | hd <;> revert hd <;> decide

theorem trimmed_ansiWrap (t : GoStr) : Trimmed (ansiWrap t) := by
  constructor
  · intro c hc
    rw [show ansiWrap t = escChar :: ('[' :: t ++ ['m']) from by
      simp [ansiWrap]] at hc
    injection hc with h2
    rw [← h2]
    decide
  · intro c hc
    rw [show (ansiWrap t).getLast? = some 'm' from List.getLast?_concat _] at hc
    injection hc with h2
    rw [← h2]
    decide

theorem parseColor_fix_of_name {lc r : GoStr} (h : lookupName lc = some r) :
    parseColor r = r := by
  unfold lookupName at h
  split_ifs at h
  all_goals (injection h with h2; rw [← h2]; decide)

/-- C9: the color resolver is idempotent — resolving an already-resolved
value (a produced escape sequence, the empty string, or a trimmed verbatim
pass-through) yields it unchanged, so feeding a resolver output back into
any color setter leaves the stored color the same. -/
theorem c9_parse_color_idempotent (c : GoStr) :
    parseColor (parseColor c) = parseColor c := by
  show parseColor (parseColorT (trimSpace c)) = parseColorT (trimSpace c)
  generalize hg : trimSpace c = t
  have ht : Trimmed t := hg ▸ trimSpace_trimmed c
  by_cases h0 : t = []
  · subst h0
    decide
  rw [parseColorT, if_neg h0]
  cases hlk : lookupName (goToLower t) with
  | some r => exact parseColor_fix_of_name hlk
  | none =>
    by_cases hesc : (containsEsc t || containsPat t) = true
    · rw [if_pos hesc]
      have hmem : escChar ∈ replEsc t := by
        apply esc_mem_replEsc
        rcases (Bool.or_eq_true _ _ ▸ hesc : _ ∨ _) with hh | hh
        · exact Or.inl (containsEsc_iff.mp hh)
        · exact Or.inr (decide_eq_true_iff.mp hh)
      show parseColorT (trimSpace (replEsc t)) = replEsc t
      rw [trimmed_eq_self (trimmed_replEsc ht)]
      exact parseColorT_fixed_escaped hmem (no_pat_infix_replEsc t)
    · rw [if_neg hesc]
      by_cases hat : atoiOk t = true
      · rw [if_pos hat]
        have hmem : escChar ∈ ansiWrap t := by simp [ansiWrap]
        have hnb : '\\' ∉ ansiWrap t := by
          intro hm
          rw [show ansiWrap t = escChar :: ('[' :: (t ++ ['m'])) from by
            simp [ansiWrap]] at hm
          rcases List.mem_cons.mp hm with hm | hm
          · exact absurd hm (by decide)
          rcases List.mem_cons.mp hm with hm | hm
          · exact absurd hm (by decide)
          rcases List.mem_append.mp hm with hm | hm
          · exact atoiOk_no_backslash hat hm
          · exact absurd hm (by decide)
        have hnp : ¬ patText <:+: ansiWrap t :=
          fun hi => hnb (hi.subset (by decide))
        show parseColorT (trimSpace (ansiWrap t)) = ansiWrap t
        rw [trimmed_eq_self (trimmed_ansiWrap t)]
        exact parseColorT_fixed_escaped hmem hnp
      · rw [if_neg hat]
        show parseColorT (trimSpace t) = t
        rw [trimmed_eq_self ht]
        simp only [parseColorT, if_neg h0, hlk]
        rw [if_neg hesc, if_neg hat]

end Glogi
